import Mathlib

/-!
Shallow embedding of the `validate` Go package: the validator combinators
(part_000), error model (errors.go), options (options.go), the resolution
engine with its registry and cycle detection (resolution.go), the default
struct-tag expression scanner, and the entry point (part_005).

Go's `reflect` values and types are modelled by the inductives `RValue` and
`RType`; named struct types are looked up in a `TypeEnv` so that
self-referential (cyclic) type graphs can be expressed.  Recursion through
the registry (build-time) and through deferred validators (check-time) is
paid for with an explicit fuel parameter; every function is a computable
structural recursion so that concrete runs evaluate inside the kernel.

Modelling notes (scoping, each marked again at the definition it concerns):
* machine integers are `Int`/`Nat`; the float comparison branches of `cmp`
  and the `zero`/`notzero` constraint factories are outside the model (no
  claim touches them), as are Go interface kinds and types implementing the
  `Validator` interface (so `buildValidator`'s `validatorImpl` is always
  `NoOpValidator`, resolution.go line 49);
* Go `string` length is bytes; the model counts characters (identical on
  the ASCII data used throughout);
* nil slices/maps are not distinguished from empty ones; a `reflect.Value`
  that is a nil pointer is `vPtr t none`, the invalid value is `vInvalid`.
-/

namespace GoValidate

/-- Go `reflect.Type`, restricted to the kinds the package dispatches on.
A named struct type refers to its field list through a `TypeEnv`, which is
how cyclic type graphs (a struct holding a pointer to its own type) are
expressed. -/
inductive RType where
  | tBool : RType
  | tInt : RType
  | tUint : RType
  | tString : RType
  | tPtr (elem : RType) : RType
  | tSlice (elem : RType) : RType
  | tMap (key value : RType) : RType
  | tStruct (name : String) : RType
  | tInvalid : RType
deriving DecidableEq, Repr

/-- Go `reflect.StructField`: field name, declared type, and the struct tag
modelled as an association list from tag name to tag value (Go
`StructTag.Lookup`). -/
structure FieldDef where
  name : String
  type : RType
  tags : List (String × String)
deriving DecidableEq, Repr

/-- The zero `reflect.StructField` (as in a fresh `ResolutionContext`). -/
def emptyField : FieldDef := ⟨"", RType.tInvalid, []⟩

/-- Environment of named struct types: struct name to field list. -/
abbrev TypeEnv := List (String × List FieldDef)

/-- Field list of a named struct type. -/
def envLookup : TypeEnv → String → Option (List FieldDef)
  | [], _ => none
  | (n, fs) :: rest, name => if n = name then some fs else envLookup rest name

/-- Go `reflect.Value` over the modelled kinds.  `vPtr t none` is a nil
pointer to `t`; `vInvalid` is the invalid `reflect.Value`. -/
inductive RValue where
  | vBool (b : Bool) : RValue
  | vInt (n : Int) : RValue
  | vUint (n : Nat) : RValue
  | vString (s : String) : RValue
  | vPtr (elem : RType) (v : Option RValue) : RValue
  | vSlice (elem : RType) (xs : List RValue) : RValue
  | vMap (key value : RType) (entries : List (RValue × RValue)) : RValue
  | vStruct (name : String) (fields : List (String × RValue)) : RValue
  | vInvalid : RValue

/-- The Go `error` values the package produces: `*Error` (data error,
`err`), `*Warning` (`warn`), the typed usage errors of errors.go, and
`fmtError` for plain `fmt.Errorf` errors. -/
inductive GoError where
  | err (msg : String) : GoError
  | warn (msg : String) : GoError
  | invalidTagArguments (message validatorName : String) (args : List String) : GoError
  | unknownField (typeName fieldName : String) : GoError
  | noValidator (typeName : String) : GoError
  | noTagValidatorFactory (name : String) : GoError
  | fmtError (msg : String) : GoError
deriving DecidableEq, Repr

/-- Go `%q` of a simple identifier (none of the names used here need
escaping). -/
def quoteGo (s : String) : String := "\"" ++ s ++ "\""

/-- The `Error()` method of each error type (errors.go). -/
def GoError.errorMessage : GoError → String
  | .err m => m
  | .warn m => m
  | .invalidTagArguments m n _ => "(" ++ n ++ ") " ++ m
  | .unknownField t n => quoteGo t ++ " does not contain a field " ++ quoteGo n
  | .noValidator t => "no validator found for " ++ t
  | .noTagValidatorFactory n => "no validator factory found for " ++ n
  | .fmtError m => m

/-- Go `reflect.Type.String()` over the modelled kinds. -/
def typeString : RType → String
  | .tBool => "bool"
  | .tInt => "int"
  | .tUint => "uint"
  | .tString => "string"
  | .tPtr t => "*" ++ typeString t
  | .tSlice t => "[]" ++ typeString t
  | .tMap k v => "map[" ++ typeString k ++ "]" ++ typeString v
  | .tStruct n => n
  | .tInvalid => "<nil>"

/-- The `reflect.Type` of a value. -/
def RValue.typeOf : RValue → RType
  | .vBool _ => .tBool
  | .vInt _ => .tInt
  | .vUint _ => .tUint
  | .vString _ => .tString
  | .vPtr t _ => .tPtr t
  | .vSlice t _ => .tSlice t
  | .vMap k v _ => .tMap k v
  | .vStruct n _ => .tStruct n
  | .vInvalid => .tInvalid

/-- Go `fmt` `%v` of the modelled values (scalars, slices, maps, structs;
a nil pointer prints `<nil>`). -/
def fmtV : RValue → String
  | .vBool b => if b then "true" else "false"
  | .vInt n => toString n
  | .vUint n => toString n
  | .vString s => s
  | .vPtr _ none => "<nil>"
  | .vPtr _ (some v) => "&" ++ fmtV v
  | .vSlice _ xs => "[" ++ fmtVList xs ++ "]"
  | .vMap _ _ es => "map[" ++ fmtVEntries es ++ "]"
  | .vStruct _ fs => "\x7b" ++ fmtVFields fs ++ "\x7d"
  | .vInvalid => "<invalid Value>"
where
  fmtVList : List RValue → String
    | [] => ""
    | [x] => fmtV x
    | x :: rest => fmtV x ++ " " ++ fmtVList rest
  fmtVEntries : List (RValue × RValue) → String
    | [] => ""
    | [(k, v)] => fmtV k ++ ":" ++ fmtV v
    | (k, v) :: rest => fmtV k ++ ":" ++ fmtV v ++ " " ++ fmtVEntries rest
  fmtVFields : List (String × RValue) → String
    | [] => ""
    | [(_, v)] => fmtV v
    | (_, v) :: rest => fmtV v ++ " " ++ fmtVFields rest

/-- `%v` of a `[]interface{}` argument list (used by `In`'s message). -/
def fmtVals (vs : List RValue) : String :=
  "[" ++ go vs ++ "]"
where
  go : List RValue → String
    | [] => ""
    | [x] => fmtV x
    | x :: rest => fmtV x ++ " " ++ go rest

/-- part_000 `indirect`: dereference pointers until a non-pointer or a nil
pointer is reached. -/
def indirect : RValue → RValue
  | .vPtr _ (some v) => indirect v
  | v => v

/-- `reflect.Value.IsValid`. -/
def isValidV : RValue → Bool
  | .vInvalid => false
  | _ => true

/-- `reflect.Value.Elem()` on a pointer (nil pointer yields the invalid
value, matching Go). -/
def elemOfPtr : RValue → RValue
  | .vPtr _ (some v) => v
  | _ => .vInvalid

/-- `reflect.Value.Len()` over the sized kinds. -/
def lenV : RValue → Nat
  | .vString s => s.length
  | .vSlice _ xs => xs.length
  | .vMap _ _ es => es.length
  | _ => 0

/-- `reflect.Value.FieldByName` on a struct value (invalid otherwise;
Go would panic on a non-struct, which no modelled path exercises). -/
def fieldByName : RValue → String → RValue
  | .vStruct _ fs, n =>
    match fs.find? (fun p => p.1 == n) with
    | some p => p.2
    | none => .vInvalid
  | _, _ => .vInvalid

/-- `reflect.Type.Elem()` over the modelled kinds (identity elsewhere;
Go would panic there, which no modelled path exercises). -/
def RType.elem : RType → RType
  | .tPtr t => t
  | .tSlice t => t
  | .tMap _ v => v
  | t => t

/-- The kinds `Empty`/`NotEmpty`/`Length`/`MinLength`/`MaxLength` measure:
string, array, slice, map (Go arrays are modelled as slices). -/
def hasLenKind : RValue → Bool
  | .vString _ => true
  | .vSlice _ _ => true
  | .vMap _ _ _ => true
  | _ => false

/-- The nil-able kinds of `Nil`/`NotNil` that exist in the model
(chan, func, interface and unsafe pointers are outside it). -/
def nilableKind : RValue → Bool
  | .vPtr _ _ => true
  | .vSlice _ _ => true
  | .vMap _ _ _ => true
  | _ => false

/-- `reflect.Value.IsNil` over the modelled nil-able kinds (slices and maps
in the model are never nil, see the header note). -/
def isNilV : RValue → Bool
  | .vPtr _ none => true
  | _ => false

/-- Decimal digit run to a number (empty or non-digit input fails). -/
def digitsToNat : List Char → Option Nat
  | [] => none
  | cs => go cs 0
where
  go : List Char → Nat → Option Nat
    | [], acc => some acc
    | c :: rest, acc =>
      if c.isDigit then go rest (acc * 10 + (c.toNat - '0'.toNat))
      else none

/-- `strconv.Atoi` (decimal, optional sign). -/
def parseIntGo (s : String) : Option Int :=
  match s.toList with
  | '-' :: rest => (digitsToNat rest).map (fun n => -(n : Int))
  | '+' :: rest => (digitsToNat rest).map (fun n => (n : Int))
  | cs => (digitsToNat cs).map (fun n => (n : Int))

/-- `strconv.ParseUint(s, 10, 64)` (decimal, no sign). -/
def parseUintGo (s : String) : Option Nat := digitsToNat s.toList

/-- `strconv.ParseBool`. -/
def parseBoolGo : String → Option Bool
  | "1" => some true
  | "t" => some true
  | "T" => some true
  | "TRUE" => some true
  | "true" => some true
  | "True" => some true
  | "0" => some false
  | "f" => some false
  | "F" => some false
  | "FALSE" => some false
  | "false" => some false
  | "False" => some false
  | _ => none

/-- part_000 `tryParseString`: coerce a raw tag argument against the target
kind (the float kinds are outside the model). -/
def tryParseStringGo : RType → String → Except GoError RValue
  | .tBool, arg =>
    match parseBoolGo arg with
    | some b => .ok (.vBool b)
    | none => .error (.fmtError "invalid syntax")
  | .tInt, arg =>
    match parseIntGo arg with
    | some n => .ok (.vInt n)
    | none => .error (.fmtError "invalid syntax")
  | .tUint, arg =>
    match parseUintGo arg with
    | some n => .ok (.vUint n)
    | none => .error (.fmtError "invalid syntax")
  | .tPtr t, arg => tryParseStringGo t arg
  | .tString, arg => .ok (.vString arg)
  | _, _ => .error (.err "unsupported type")

/-- part_000 `cmp`: the ordering primitive of the comparison leaves.  The
dead `uint64(v) < 0` tests of the source collapse away; note the missing
less-than comparison in the mixed int/uint branches and the misspelling in
the incompatibility message, both faithful to the source. -/
def cmpGo (val other : RValue) : Except GoError Int :=
  match val, other with
  | .vBool a, .vBool b => .ok (if a == b then 0 else -1)
  | .vInt v, .vInt o => .ok (if v < o then -1 else if v == o then 0 else 1)
  | .vInt v, .vUint o => .ok (if v < 0 then -1 else if v.toNat == o then 0 else 1)
  | .vUint v, .vInt o => .ok (if o < 0 then 1 else if v == o.toNat then 0 else 1)
  | .vUint v, .vUint o => .ok (if v < o then -1 else if v == o then 0 else 1)
  | .vString v, .vString o => .ok (if v < o then -1 else if v == o then 0 else 1)
  | _, _ =>
    .error (.fmtError ("incompatible types for comparision: " ++
      typeString val.typeOf ++ " and " ++ typeString other.typeOf))

/-- part_000 `isEmptyAllowed` (also the gate of `NotEmpty`, which uses the
same message). -/
def isEmptyAllowedGo : RType → String → List String → Option GoError
  | .tString, _, _ => none
  | .tSlice _, _, _ => none
  | .tMap _ _, _, _ => none
  | .tPtr t, name, args => isEmptyAllowedGo t name args
  | _, name, args =>
    some (.invalidTagArguments
      "only pointers to/or strings, arrays, slices, and maps are supported" name args)

/-- part_000 `isNotEmptyAllowed` (same shape and message as `isEmptyAllowed`). -/
def isNotEmptyAllowedGo : RType → String → List String → Option GoError
  | .tString, _, _ => none
  | .tSlice _, _, _ => none
  | .tMap _ _, _, _ => none
  | .tPtr t, name, args => isNotEmptyAllowedGo t name args
  | _, name, args =>
    some (.invalidTagArguments
      "only pointers to/or strings, arrays, slices, and maps are supported" name args)

/-- part_000 `isLengthAllowed`: kind gate plus the single-integer-argument
check. -/
def isLengthAllowedGo (t : RType) (name : String) (args : List String) : Option GoError :=
  match t with
  | .tPtr t' => isLengthAllowedGo t' name args
  | .tString => argCheck name args
  | .tSlice _ => argCheck name args
  | .tMap _ _ => argCheck name args
  | _ =>
    some (.invalidTagArguments
      "only pointers to/or strings, arrays, slices, and maps are supported" name args)
where
  argCheck (name : String) (args : List String) : Option GoError :=
    match args with
    | [a] =>
      match parseIntGo a with
      | some _ => none
      | none => some (.invalidTagArguments "argument must be an integer" name args)
    | _ => some (.invalidTagArguments "1 argument is required" name args)

/-- part_000 `isNilAllowed`. -/
def isNilAllowedGo (t : RType) (name : String) (args : List String) : Option GoError :=
  match t with
  | .tPtr _ => none
  | .tSlice _ => none
  | .tMap _ _ => none
  | _ => some (.invalidTagArguments "only nil-able types are supported" name args)

/-- part_000 `isNotNilAllowed` (identical gate to `isNilAllowed`). -/
def isNotNilAllowedGo (t : RType) (name : String) (args : List String) : Option GoError :=
  isNilAllowedGo t name args

/-- part_000 `isCmpAllowed`: single argument, parseable against the target
scalar kind. -/
def isCmpAllowedGo (t : RType) (name : String) (args : List String) : Option GoError :=
  match args with
  | [a] => kindCheck t name a args
  | _ => some (.invalidTagArguments "1 argument is required" name args)
where
  kindCheck (t : RType) (name : String) (a : String) (args : List String) : Option GoError :=
    match t with
    | .tBool =>
      match parseBoolGo a with
      | some _ => none
      | none => some (.invalidTagArguments "argument must be a boolean" name args)
    | .tInt =>
      match parseIntGo a with
      | some _ => none
      | none => some (.invalidTagArguments "argument must be an integer" name args)
    | .tUint =>
      match parseUintGo a with
      | some _ => none
      | none => some (.invalidTagArguments "argument must be an unsigned integer" name args)
    | .tPtr t' => kindCheck t' name a args
    | .tString => none
    | _ =>
      some (.invalidTagArguments
        "only pointers to/or strings, bools, and numbers are allowed" name args)

/-- errors.go `mergeErrorMessages`: first message, then each further message
appended behind the padded separator (the empty-list panic of the source is
unreachable through its guarded callers). -/
def mergeErrorMessages (errs : List GoError) (sep : String) : String :=
  match errs with
  | [] => ""
  | e :: rest =>
    rest.foldl (fun acc x => acc ++ " " ++ sep ++ " " ++ x.errorMessage) e.errorMessage

/-- errors.go `mergeWarningsAndErrors`: join the collected warnings into one
`*Warning` and the collected errors into one `*Error`. -/
def mergeWarningsAndErrorsGo (warnings errs : List GoError) (sep : String) :
    Option GoError × Option GoError :=
  let warning : Option GoError :=
    if warnings.isEmpty then none else some (.warn (mergeErrorMessages warnings sep))
  if errs.isEmpty then (none, warning)
  else (some (.err (mergeErrorMessages errs sep)), warning)

/-- part_003 `mergeWarning`: fold a warning into the error channel, joining
with "and"; the result is always a `*Error`. -/
def mergeWarningGo (e w : Option GoError) : Option GoError :=
  match e, w with
  | none, none => none
  | some e', none => some (.err (mergeErrorMessages [e'] "and"))
  | none, some w' => some (.err (mergeErrorMessages [w'] "and"))
  | some e', some w' => some (.err (mergeErrorMessages [e', w'] "and"))

/-- Deep embedding of the package's validators: each constructor is one of
the closures the source builds.  `andN`/`orN` are the composite closures
`And`/`Or` return for two or more children; `ptrElem` is the dereferencing
wrapper of `buildNonImplValidator`'s pointer case; `delayed t` is
`delayedLookup(registry, t)`; `constV` stands for an arbitrary user-supplied
`ValidatorFunc` with fixed outcomes (such as the self-check implementations
of the test suite), which keeps the warning channel inhabited. -/
inductive Validator where
  | noOp : Validator
  | constV (e w : Option GoError) : Validator
  | andN (children : List Validator) : Validator
  | orN (children : List Validator) : Validator
  | field (name : String) (inner : Validator) : Validator
  | items (inner : Validator) : Validator
  | custom (inner : Validator) (msg : String) : Validator
  | empty : Validator
  | notEmpty : Validator
  | length (n : Int) : Validator
  | minLength (n : Int) : Validator
  | maxLength (n : Int) : Validator
  | equal (other : RValue) : Validator
  | notEqual (other : RValue) : Validator
  | greaterThan (other : RValue) : Validator
  | greaterThanOrEqual (other : RValue) : Validator
  | lessThan (other : RValue) : Validator
  | lessThanOrEqual (other : RValue) : Validator
  | inVals (values : List RValue) : Validator
  | isNil : Validator
  | notNil : Validator
  | ptrElem (inner : Validator) : Validator
  | delayed (t : RType) : Validator

/-- part_000 `And`: zero children collapse to `NoOpValidator`, one child is
returned unchanged, otherwise the conjunction closure. -/
def andV (validators : List Validator) : Validator :=
  match validators with
  | [] => .noOp
  | [v] => v
  | vs => .andN vs

/-- part_000 `Or`: same arity collapsing as `And`, then the disjunction
closure. -/
def orV (validators : List Validator) : Validator :=
  match validators with
  | [] => .noOp
  | [v] => v
  | vs => .orN vs

/-- part_000 `CustomMessage`. -/
def customMessageV (validator : Validator) (msg : String) : Validator :=
  .custom validator msg

/-- part_000 `Field`. -/
def fieldV (name : String) (validator : Validator) : Validator :=
  .field name validator

/-- part_000 `Items`. -/
def itemsV (validator : Validator) : Validator := .items validator

/-- options.go `Options` (run configuration).  The source struct also
carries the `Registry` pointer and the explicit `Validator` override; the
model passes those separately to the functions that consume them. -/
structure Options where
  stopOnError : Bool
  warningsAsErrors : Bool
deriving DecidableEq, Repr

/-- options.go `Options.shouldStopOnWarnings`. -/
def shouldStopOnWarnings (o : Options) : Bool :=
  o.stopOnError && o.warningsAsErrors

/-- part_001 `Context`: options, optional parent back-reference, and the
value under check. -/
inductive Context where
  | mk (options : Options) (parent : Option Context) (value : RValue)

/-- The `Options` of a `Context`. -/
def Context.options : Context → Options
  | .mk o _ _ => o

/-- The `Value` of a `Context`. -/
def Context.value : Context → RValue
  | .mk _ _ v => v

/-- part_002 `Registry`: the struct-tag name, the type→validator cache
(association list standing for the Go map; a later entry for the same type
shadows an earlier one, so consing is installation), and the catalog of
registered tag-validator factory names.  The model realises each default
factory's body in `applyFactoryGo`, so the catalog stores only names. -/
structure Registry where
  structTagName : String
  validators : List (RType × Option Validator)
  factories : List String

/-- Cache lookup in the type→validator map. -/
def cacheLookup (cache : List (RType × Option Validator)) (t : RType) :
    Option (Option Validator) :=
  match cache with
  | [] => none
  | (t', v) :: rest => if t' = t then some v else cacheLookup rest t

/-- Cache installation (`r.validators[ctx.Type] = v`). -/
def cacheInstall (r : Registry) (t : RType) (v : Validator) : Registry :=
  { r with validators := (t, some v) :: r.validators }

/-- resolution.go `ResolutionContext`: parent back-reference along the
type-nesting chain, the struct field being processed, and the type being
resolved (the registry reference is passed alongside in the model). -/
inductive RCtx where
  | mk (parent : Option RCtx) (structField : FieldDef) (type : RType)

/-- The parent of a `ResolutionContext`. -/
def RCtx.parent : RCtx → Option RCtx
  | .mk p _ _ => p

/-- The `StructField` of a `ResolutionContext`. -/
def RCtx.structField : RCtx → FieldDef
  | .mk _ f _ => f

/-- The `Type` of a `ResolutionContext`. -/
def RCtx.type : RCtx → RType
  | .mk _ _ t => t

/-- The parent-chain walk of `ResolutionContext.LookupValidator`
(resolution.go lines 26-32): does `t` appear on the chain starting at
`ctx.Parent`? -/
def chainHas : RCtx → RType → Bool
  | .mk none _ _, _ => false
  | .mk (some p) _ _, t => (p.type = t) || chainHas p t

/-- `StructTagParseResult`: a validator plus an optional custom message. -/
structure StructTagParseResult where
  validator : Validator
  customMessage : String

/-- One check outcome: the `(error, warning)` pair of `Validator.Validate`. -/
def Outcome := Option GoError × Option GoError

/-- part_000 `Empty`. -/
def checkEmptyGo (ctx : Context) : Outcome :=
  let val := indirect ctx.value
  if hasLenKind val then
    if lenV val ≠ 0 then (some (.err "must be empty"), none) else (none, none)
  else
    match val with
    | .vPtr _ _ => (some (.err "must be empty"), none)
    | _ => (isEmptyAllowedGo val.typeOf "empty" [], none)

/-- part_000 `NotEmpty`. -/
def checkNotEmptyGo (ctx : Context) : Outcome :=
  let val := indirect ctx.value
  if hasLenKind val then
    if lenV val = 0 then (some (.err "must not be empty"), none) else (none, none)
  else
    match val with
    | .vPtr _ _ => (some (.err "must not be empty"), none)
    | _ => (isNotEmptyAllowedGo val.typeOf "notempty" [], none)

/-- part_000 `Length`. -/
def checkLengthGo (n : Int) (ctx : Context) : Outcome :=
  let val := indirect ctx.value
  if hasLenKind val then
    if (lenV val : Int) ≠ n then (some (.err ("must be of length " ++ toString n)), none)
    else (none, none)
  else
    match val with
    | .vPtr _ _ => (some (.err ("must be of length " ++ toString n)), none)
    | _ => (isLengthAllowedGo val.typeOf "length" [], none)

/-- part_000 `MinLength`. -/
def checkMinLengthGo (n : Int) (ctx : Context) : Outcome :=
  let val := indirect ctx.value
  if hasLenKind val then
    if (lenV val : Int) < n then (some (.err ("must have min length " ++ toString n)), none)
    else (none, none)
  else
    match val with
    | .vPtr _ _ => (some (.err ("must have min length " ++ toString n)), none)
    | _ => (isLengthAllowedGo val.typeOf "minlength" [], none)

/-- part_000 `MaxLength`. -/
def checkMaxLengthGo (n : Int) (ctx : Context) : Outcome :=
  let val := indirect ctx.value
  if hasLenKind val then
    if n < (lenV val : Int) then (some (.err ("must have max length " ++ toString n)), none)
    else (none, none)
  else
    match val with
    | .vPtr _ _ => (some (.err ("must have max length " ++ toString n)), none)
    | _ => (isLengthAllowedGo val.typeOf "maxlength" [], none)

/-- The shared body of the six comparison leaves: indirect, fail on a (nil)
pointer, compare, and test the ordering with `pass`. -/
def checkCmpLeafGo (other : RValue) (msg : String) (pass : Int → Bool)
    (ctx : Context) : Outcome :=
  let val := indirect ctx.value
  match val with
  | .vPtr _ _ => (some (.err msg), none)
  | _ =>
    match cmpGo val other with
    | .error e => (some e, none)
    | .ok r => if pass r then (none, none) else (some (.err msg), none)

/-- part_000 `Equal`. -/
def checkEqualGo (other : RValue) (ctx : Context) : Outcome :=
  checkCmpLeafGo other ("must be equal to " ++ fmtV other) (fun r => r = 0) ctx

/-- part_000 `NotEqual`. -/
def checkNotEqualGo (other : RValue) (ctx : Context) : Outcome :=
  checkCmpLeafGo other ("must not be equal to " ++ fmtV other) (fun r => r ≠ 0) ctx

/-- part_000 `GreaterThan`. -/
def checkGreaterThanGo (other : RValue) (ctx : Context) : Outcome :=
  checkCmpLeafGo other ("must be greater than " ++ fmtV other) (fun r => 0 < r) ctx

/-- part_000 `GreaterThanOrEqual`. -/
def checkGreaterThanOrEqualGo (other : RValue) (ctx : Context) : Outcome :=
  checkCmpLeafGo other ("must be greater than or equal to " ++ fmtV other)
    (fun r => 0 ≤ r) ctx

/-- part_000 `LessThan`. -/
def checkLessThanGo (other : RValue) (ctx : Context) : Outcome :=
  checkCmpLeafGo other ("must be less than " ++ fmtV other) (fun r => r < 0) ctx

/-- part_000 `LessThanOrEqual`. -/
def checkLessThanOrEqualGo (other : RValue) (ctx : Context) : Outcome :=
  checkCmpLeafGo other ("must be less than or equal to " ++ fmtV other)
    (fun r => r ≤ 0) ctx

/-- The candidate loop of part_000 `In`: the first comparison error is
returned, an `equal` result succeeds, exhaustion fails with the membership
message. -/
def inLoopGo (val : RValue) (msg : String) : List RValue → Outcome
  | [] => (some (.err msg), none)
  | v :: rest =>
    match cmpGo val (v) with
    | .error e => (some e, none)
    | .ok r => if r = 0 then (none, none) else inLoopGo val msg rest

/-- part_000 `In`. -/
def checkInGo (values : List RValue) (ctx : Context) : Outcome :=
  let val := indirect ctx.value
  match val with
  | .vPtr _ _ => (some (.err ("must be one of " ++ fmtVals values)), none)
  | _ => inLoopGo val ("must be one of " ++ fmtVals values) values

/-- part_000 `Nil` (no indirection: operates on the context value itself). -/
def checkNilGo (ctx : Context) : Outcome :=
  if nilableKind ctx.value then
    if isNilV ctx.value then (none, none) else (some (.err "must be nil"), none)
  else (isNilAllowedGo ctx.value.typeOf "nil" [], none)

/-- part_000 `NotNil`. -/
def checkNotNilGo (ctx : Context) : Outcome :=
  if nilableKind ctx.value then
    if isNilV ctx.value then (some (.err "must not be nil"), none) else (none, none)
  else (isNotNilAllowedGo ctx.value.typeOf "notnil" [], none)

/-- part_000 `isItemsAllowed`. -/
def isItemsAllowedGo : RType → String → List String → Option GoError
  | .tSlice _, _, _ => none
  | .tMap _ _, _, _ => none
  | .tPtr t, name, args => isItemsAllowedGo t name args
  | _, name, args =>
    some (.invalidTagArguments
      "only pointers to/or arrays, slices, and maps are supported" name args)

/-- The two recursion points of the resolution engine, tied off by fuel in
`mkCallbacks`: `look` is `Registry.lookupValidator` (on a resolution
context), `parse` is `ResolutionContext.ParseStructTags` through the
default struct-tag implementation.  Both thread the registry, whose cache
they may populate. -/
structure Callbacks where
  look : RCtx → Registry → (Except GoError Validator) × Registry
  parse : RCtx → String → Registry → (Except GoError StructTagParseResult) × Registry

/-- resolution.go `ResolutionContext.LookupValidator`: a type already on the
parent chain resolves to the deferred validator `delayedLookup(registry, t)`
(the loop of lines 26-32 is the predicate `chainHas`); otherwise the
context is extended and the registry lookup proceeds. -/
def ctxLookupGo (look : RCtx → Registry → (Except GoError Validator) × Registry)
    (ctx : RCtx) (reg : Registry) (t : RType) : (Except GoError Validator) × Registry :=
  if chainHas ctx t then (.ok (.delayed t), reg)
  else look (RCtx.mk (some ctx) ctx.structField t) reg

/-- The loop of `InFactory` over the raw arguments: each is gated by
`isCmpAllowed` on a singleton slice and coerced with `tryParseString`. -/
def inArgsLoopGo (t : RType) (name : String) : List String → Except GoError (List RValue)
  | [] => .ok []
  | a :: rest =>
    match isCmpAllowedGo t name [a] with
    | some e => .error e
    | none =>
      let v := match tryParseStringGo t a with
        | .ok v => v
        | .error _ => RValue.vInvalid
      match inArgsLoopGo t name rest with
      | .error e => .error e
      | .ok vs => .ok (v :: vs)

/-- The default `TagValidatorFactory` bodies (the second half of
resolution.go), dispatched by registered name.  The `zero`/`notzero`
factories are outside the model (see the header); `tryParseString`'s
ignored error returns `vInvalid`, unreachable behind the `isCmpAllowed`
gate just as in the source. -/
def applyFactoryGo (cb : Callbacks) (_env : TypeEnv) (reg : Registry) (ctx : RCtx)
    (name : String) (args : List String) : (Except GoError Validator) × Registry :=
  let parsedArg : RValue :=
    match tryParseStringGo ctx.type (args.headD "") with
    | .ok v => v
    | .error _ => RValue.vInvalid
  match name with
  | "empty" =>
    match isEmptyAllowedGo ctx.type name args with
    | some e => (.error e, reg)
    | none => (.ok .empty, reg)
  | "notempty" =>
    match isNotEmptyAllowedGo ctx.type name args with
    | some e => (.error e, reg)
    | none => (.ok .notEmpty, reg)
  | "eq" =>
    match isCmpAllowedGo ctx.type name args with
    | some e => (.error e, reg)
    | none => (.ok (.equal parsedArg), reg)
  | "neq" =>
    match isCmpAllowedGo ctx.type name args with
    | some e => (.error e, reg)
    | none => (.ok (.notEqual parsedArg), reg)
  | "gt" =>
    match isCmpAllowedGo ctx.type name args with
    | some e => (.error e, reg)
    | none => (.ok (.greaterThan parsedArg), reg)
  | "gte" =>
    match isCmpAllowedGo ctx.type name args with
    | some e => (.error e, reg)
    | none => (.ok (.greaterThanOrEqual parsedArg), reg)
  | "lt" =>
    match isCmpAllowedGo ctx.type name args with
    | some e => (.error e, reg)
    | none => (.ok (.lessThan parsedArg), reg)
  | "lte" =>
    match isCmpAllowedGo ctx.type name args with
    | some e => (.error e, reg)
    | none => (.ok (.lessThanOrEqual parsedArg), reg)
  | "in" =>
    match inArgsLoopGo ctx.type name args with
    | .error e => (.error e, reg)
    | .ok vs => (.ok (.inVals vs), reg)
  | "len" =>
    match isLengthAllowedGo ctx.type name args with
    | some e => (.error e, reg)
    | none => (.ok (.length ((parseIntGo (args.headD "")).getD 0)), reg)
  | "minlen" =>
    match isLengthAllowedGo ctx.type name args with
    | some e => (.error e, reg)
    | none => (.ok (.minLength ((parseIntGo (args.headD "")).getD 0)), reg)
  | "maxlen" =>
    match isLengthAllowedGo ctx.type name args with
    | some e => (.error e, reg)
    | none => (.ok (.maxLength ((parseIntGo (args.headD "")).getD 0)), reg)
  | "nil" =>
    match isNilAllowedGo ctx.type name args with
    | some e => (.error e, reg)
    | none => (.ok .isNil, reg)
  | "notnil" =>
    match isNotNilAllowedGo ctx.type name args with
    | some e => (.error e, reg)
    | none => (.ok .notNil, reg)
  | "struct" => ctxLookupGo cb.look ctx reg ctx.type
  | "items" =>
    match isItemsAllowedGo ctx.type name args with
    | some e => (.error e, reg)
    | none =>
      let itemsTagName := if args.length = 1 then args.headD "" else "validateItems"
      let ctx' := RCtx.mk ctx.parent ctx.structField ctx.type.elem
      match cb.parse ctx' itemsTagName reg with
      | (.error e, reg') => (.error e, reg')
      | (.ok stpr, reg') =>
        let validator :=
          if stpr.customMessage ≠ "" then Validator.custom stpr.validator stpr.customMessage
          else stpr.validator
        (.ok (.items validator), reg')
  | _ => (.error (.noTagValidatorFactory name), reg)

/-- The identifier characters of the tag scanner (`'_'`, `unicode.IsLetter`,
`unicode.IsDigit`; letter/digit classes restricted to ASCII in the model). -/
def isTagNameChar (c : Char) : Bool :=
  c == '_' || c.isAlpha || c.isDigit

/-- The scanner states of `parseTag` (`none`/`name`/`args` in the source). -/
inductive PState where
  | idle : PState
  | scanName : PState
  | scanArgs : PState

/-- What the idle state does with one character (the sentinel `Option.none`
models the `c = 0` end marker, which the source groups with `','`). -/
inductive TagAction where
  | startName (c : Char) : TagAction
  | skip : TagAction
  | startArgs : TagAction
  | finishTerm : TagAction
  | badChar (c : Char) : TagAction

/-- The idle-state dispatch of `parseTag` (resolution.go lines 509-533). -/
def idleAction : Option Char → TagAction
  | some c =>
    if isTagNameChar c then .startName c
    else if c.isWhitespace then .skip
    else if c == '(' then .startArgs
    else if c == ',' then .finishTerm
    else .badChar c
  | none => .finishTerm

/-- The character loop of `parseTag`: one pass over the runes plus the end
sentinel, carrying the scanner state, the pending name, the pending
argument, the argument list (which the source never resets between terms),
and the collected validators.  The `i--` re-processing of a non-name
character in the name state is realised by running the idle dispatch on
that same character inline.  A factory-name miss or a factory error aborts
the parse; an unterminated argument list appends the NUL rune to the
pending argument and drops the pending term, as the source does. -/
def parseTagLoop (cb : Callbacks) (env : TypeEnv) (ctx : RCtx) :
    List (Option Char) → PState → String → String → List String → List Validator →
    Registry → (Except GoError Validator) × Registry
  | [], _, _, _, _, validators, reg => (.ok (andV validators), reg)
  | c :: rest, .idle, vname, varg, vargs, validators, reg =>
    (match idleAction c with
     | .startName ch => parseTagLoop cb env ctx rest .scanName (vname.push ch) varg vargs validators reg
     | .skip => parseTagLoop cb env ctx rest .idle vname varg vargs validators reg
     | .startArgs => parseTagLoop cb env ctx rest .scanArgs vname varg vargs validators reg
     | .finishTerm =>
       if reg.factories.contains vname then
         match applyFactoryGo cb env reg ctx vname vargs with
         | (.error e, reg') => (.error e, reg')
         | (.ok v, reg') =>
           parseTagLoop cb env ctx rest .idle "" varg vargs (validators ++ [v]) reg'
       else (.error (.noTagValidatorFactory vname), reg)
     | .badChar ch =>
       (.error (.fmtError ("invalid character '" ++ ch.toString ++ "'")), reg))
  | c :: rest, .scanName, vname, varg, vargs, validators, reg =>
    (match c with
     | some ch =>
       if isTagNameChar ch then
         parseTagLoop cb env ctx rest .scanName (vname.push ch) varg vargs validators reg
       else
         (match idleAction c with
          | .startName ch' => parseTagLoop cb env ctx rest .scanName (vname.push ch') varg vargs validators reg
          | .skip => parseTagLoop cb env ctx rest .idle vname varg vargs validators reg
          | .startArgs => parseTagLoop cb env ctx rest .scanArgs vname varg vargs validators reg
          | .finishTerm =>
            if reg.factories.contains vname then
              match applyFactoryGo cb env reg ctx vname vargs with
              | (.error e, reg') => (.error e, reg')
              | (.ok v, reg') =>
                parseTagLoop cb env ctx rest .idle "" varg vargs (validators ++ [v]) reg'
            else (.error (.noTagValidatorFactory vname), reg)
          | .badChar ch' =>
            (.error (.fmtError ("invalid character '" ++ ch'.toString ++ "'")), reg))
     | none =>
       if reg.factories.contains vname then
         match applyFactoryGo cb env reg ctx vname vargs with
         | (.error e, reg') => (.error e, reg')
         | (.ok v, reg') =>
           parseTagLoop cb env ctx rest .idle "" varg vargs (validators ++ [v]) reg'
       else (.error (.noTagValidatorFactory vname), reg))
  | c :: rest, .scanArgs, vname, varg, vargs, validators, reg =>
    (match c with
     | some ch =>
       if ch == ',' then
         parseTagLoop cb env ctx rest .scanArgs vname "" (vargs ++ [varg]) validators reg
       else if ch == ')' then
         parseTagLoop cb env ctx rest .idle vname "" (vargs ++ [varg]) validators reg
       else
         parseTagLoop cb env ctx rest .scanArgs vname (varg.push ch) vargs validators reg
     | none =>
       parseTagLoop cb env ctx rest .scanArgs vname (varg.push (Char.ofNat 0)) vargs validators reg)

/-- resolution.go `parseTag` on one disjunct. -/
def parseTagGo (cb : Callbacks) (env : TypeEnv) (ctx : RCtx) (tag : String)
    (reg : Registry) : (Except GoError Validator) × Registry :=
  parseTagLoop cb env ctx (tag.toList.map some ++ [none]) .idle "" "" [] [] reg

/-- Go `strings.SplitN(s, sep, 2)` for a single-character separator: split
at the first occurrence, the remainder kept whole. -/
def splitN2 (s : String) (sep : Char) : List String :=
  match go sep s.toList [] with
  | none => [s]
  | some (before, after) => [String.mk before.reverse, String.mk after]
where
  go (sep : Char) : List Char → List Char → Option (List Char × List Char)
    | [], _ => none
    | c :: rest, acc => if c == sep then some (acc, rest) else go sep rest (c :: acc)

/-- Go `strings.Split` for a single-character separator (yields `[""]` on
the empty string, as `strings.Split` does). -/
def splitAllChar (sep : Char) (s : String) : List String :=
  go sep s.toList []
where
  go (sep : Char) : List Char → List Char → List String
    | [], acc => [String.mk acc.reverse]
    | c :: rest, acc =>
      if c == sep then String.mk acc.reverse :: go sep rest []
      else go sep rest (c :: acc)

/-- The per-disjunct loop of `DefaultStructTagParser` over the `'|'` split. -/
def disjunctLoopGo (cb : Callbacks) (env : TypeEnv) (ctx : RCtx) :
    List String → Registry → (Except GoError (List Validator)) × Registry
  | [], reg => (.ok [], reg)
  | part :: rest, reg =>
    match parseTagGo cb env ctx part reg with
    | (.error e, reg') => (.error e, reg')
    | (.ok v, reg') =>
      match disjunctLoopGo cb env ctx rest reg' with
      | (.error e, reg'') => (.error e, reg'')
      | (.ok vs, reg'') => (.ok (v :: vs), reg'')

/-- resolution.go `DefaultStructTagParser`: an absent tag or the literal
`"-"` yields a no-op result; otherwise the text before an optional `'~'`
(whose suffix becomes the custom message for the whole expression) is split
on `'|'` into disjuncts, each parsed with `parseTag` and combined with
`Or`. -/
def defaultStructTagParserGo (env : TypeEnv) (cb : Callbacks) (ctx : RCtx)
    (tagName : String) (reg : Registry) :
    (Except GoError StructTagParseResult) × Registry :=
  match tagLookup ctx.structField.tags tagName with
  | none => (.ok ⟨.noOp, ""⟩, reg)
  | some tag =>
    if tag = "-" then (.ok ⟨.noOp, ""⟩, reg)
    else
      let defAndMessage := splitN2 tag '~'
      let parts := splitAllChar '|' (defAndMessage.headD "")
      match disjunctLoopGo cb env ctx parts reg with
      | (.error e, reg') => (.error e, reg')
      | (.ok validators, reg') =>
        let msg := match defAndMessage with
          | [_, m] => m
          | _ => ""
        (.ok ⟨orV validators, msg⟩, reg')
where
  /-- Go `StructTag.Lookup` over the modelled tag association list. -/
  tagLookup : List (String × String) → String → Option String
    | [], _ => none
    | (k, v) :: rest, n => if k = n then some v else tagLookup rest n

/-- The per-field loop of `buildStructValidator`: parse the field's tags,
wrap in `Field`, apply `CustomMessage` when the parse produced one. -/
def buildStructFieldsGo (cb : Callbacks) (env : TypeEnv) (ctx : RCtx) :
    List FieldDef → Registry → (Except GoError (List Validator)) × Registry
  | [], reg => (.ok [], reg)
  | f :: rest, reg =>
    let cctx := RCtx.mk (some ctx) f f.type
    match cb.parse cctx reg.structTagName reg with
    | (.error e, reg') => (.error e, reg')
    | (.ok stpr, reg') =>
      let validator := fieldV f.name stpr.validator
      let validator :=
        if 0 < stpr.customMessage.length then customMessageV validator stpr.customMessage
        else validator
      match buildStructFieldsGo cb env ctx rest reg' with
      | (.error e, reg'') => (.error e, reg'')
      | (.ok vs, reg'') => (.ok (validator :: vs), reg'')

/-- resolution.go `buildStructValidator`: all field validators combined with
`And`. -/
def buildStructValidatorGo (cb : Callbacks) (env : TypeEnv) (reg : Registry)
    (ctx : RCtx) : (Except GoError Validator) × Registry :=
  match ctx.type with
  | .tStruct n =>
    match envLookup env n with
    | none => (.error (.noValidator (typeString ctx.type)), reg)
    | some fields =>
      match buildStructFieldsGo cb env ctx fields reg with
      | (.error e, reg') => (.error e, reg')
      | (.ok vs, reg') => (.ok (andV vs), reg')
  | _ =>
    (.error (.fmtError ("cannot build a struct validator for kind " ++
      typeString ctx.type)), reg)

/-- resolution.go `buildNonImplValidator`: structural dispatch.  A pointer
type resolves its referent through `ctx.LookupValidator` (hence through the
cycle check) and wraps it in the dereferencing closure; the interface kind
is outside the model (see the header); everything else is
`ErrNoValidator`. -/
def buildNonImplValidatorGo (cb : Callbacks) (env : TypeEnv) (reg : Registry)
    (ctx : RCtx) : (Except GoError Validator) × Registry :=
  match ctx.type with
  | .tStruct _ => buildStructValidatorGo cb env reg ctx
  | .tPtr e =>
    match ctxLookupGo cb.look ctx reg e with
    | (.error err, reg') => (.error err, reg')
    | (.ok v, reg') => (.ok (.ptrElem v), reg')
  | _ => (.error (.noValidator (typeString ctx.type)), reg)

/-- resolution.go `buildValidator`.  No modelled type implements the
`Validator` interface, so `validatorImpl` is always `NoOpValidator`
(lines 49-68 of the source); the result is `And(validatorImpl,
nonImplValidator)`. -/
def buildValidatorGo (cb : Callbacks) (env : TypeEnv) (reg : Registry)
    (ctx : RCtx) : (Except GoError Validator) × Registry :=
  let validatorImpl := Validator.noOp
  match buildNonImplValidatorGo cb env reg ctx with
  | (.error e, reg') => (.error e, reg')
  | (.ok nonImpl, reg') => (.ok (andV [validatorImpl, nonImpl]), reg')

/-- part_002 `Registry.lookupValidator`: cache hit (a cached nil is
`ErrNoValidator`), else build and install. -/
def regLookupGo (env : TypeEnv) (cb : Callbacks) (ctx : RCtx) (reg : Registry) :
    (Except GoError Validator) × Registry :=
  match cacheLookup reg.validators ctx.type with
  | some none => (.error (.noValidator (typeString ctx.type)), reg)
  | some (some v) => (.ok v, reg)
  | none =>
    match buildValidatorGo cb env reg ctx with
    | (.error e, reg') => (.error e, reg')
    | (.ok v, reg') => (.ok v, cacheInstall reg' ctx.type v)

/-- Ties off the build-time recursion (`lookupValidator` ↔ `buildValidator`
↔ tag parsing) with fuel; at every level the nested calls run one level
lower.  Exhausted fuel reports an error, which a successful concrete run
therefore never met. -/
def mkCallbacks : Nat → TypeEnv → Callbacks
  | 0, _ =>
    ⟨fun _ reg => (.error (.fmtError "resolution fuel exhausted"), reg),
     fun _ _ reg => (.error (.fmtError "resolution fuel exhausted"), reg)⟩
  | fuel + 1, env =>
    let cb := mkCallbacks fuel env
    ⟨fun ctx reg => regLookupGo env cb ctx reg,
     fun ctx tagName reg => defaultStructTagParserGo env cb ctx tagName reg⟩

/-- part_002 `Registry.LookupValidator` (the public entry): a fresh
`ResolutionContext` for `t`, then the internal lookup. -/
def lookupValidatorTop (fuel : Nat) (env : TypeEnv) (reg : Registry) (t : RType) :
    (Except GoError Validator) × Registry :=
  (mkCallbacks fuel env).look (RCtx.mk none emptyField t) reg

/-- The child loop of `And`'s composite closure (part_000 lines 33-53):
an error is collected and, under `StopOnError`, breaks the loop at once
(discarding that child's warning, as the source's `break` placement does);
a warning is collected and breaks under `shouldStopOnWarnings`; the
accumulators are joined with "and". -/
def andLoopGo (cc : Registry → Validator → Context → Outcome × Registry) (ctx : Context) :
    List Validator → Registry → List GoError → List GoError → Outcome × Registry
  | [], reg, errs, warns => (mergeWarningsAndErrorsGo warns errs "and", reg)
  | v :: rest, reg, errs, warns =>
    match cc reg v ctx with
    | ((e, w), reg') =>
      let errs' := match e with
        | some ge => errs ++ [ge]
        | none => errs
      if e.isSome && ctx.options.stopOnError then
        (mergeWarningsAndErrorsGo warns errs' "and", reg')
      else
        match w with
        | some gw =>
          let warns' := warns ++ [gw]
          if shouldStopOnWarnings ctx.options then
            (mergeWarningsAndErrorsGo warns' errs' "and", reg')
          else andLoopGo cc ctx rest reg' errs' warns'
        | none => andLoopGo cc ctx rest reg' errs' warns

/-- The child loop of `Or`'s composite closure (part_000 lines 533-550):
the first child with neither error nor warning succeeds immediately;
otherwise both outcomes are collected and finally joined with "or". -/
def orLoopGo (cc : Registry → Validator → Context → Outcome × Registry) (ctx : Context) :
    List Validator → Registry → List GoError → List GoError → Outcome × Registry
  | [], reg, errs, warns => (mergeWarningsAndErrorsGo warns errs "or", reg)
  | v :: rest, reg, errs, warns =>
    match cc reg v ctx with
    | ((e, w), reg') =>
      if e.isNone && w.isNone then ((none, none), reg')
      else orLoopGo cc ctx rest reg' (errs ++ e.toList) (warns ++ w.toList)

/-- The sequence loop of `Items` (part_000 lines 226-253).  A child `*Error`
is collected with the `[index]` qualifier; the source's subsequent
`if ctx.Options.StopOnError { break }` sits inside the `switch err.(type)`
statement, so that `break` terminates only the switch and iteration
continues — the model reproduces this by not stopping there.  A non-`*Error`
child error returns immediately.  A child warning is collected (wrapped by
`newErrorf`, hence as an `*Error` value) and stops the loop under
`shouldStopOnWarnings`, that `break` being directly inside the `for`. -/
def itemsSliceLoopGo (cc : Registry → Validator → Context → Outcome × Registry)
    (ctx : Context) (inner : Validator) :
    List RValue → Nat → Registry → List GoError → List GoError → Outcome × Registry
  | [], _, reg, errs, warns => (mergeWarningsAndErrorsGo warns errs "and", reg)
  | x :: rest, i, reg, errs, warns =>
    let fctx := Context.mk ctx.options (some ctx) x
    match cc reg inner fctx with
    | ((e, w), reg') =>
      match e with
      | some (.err m) =>
        let errs' := errs ++ [GoError.err ("[" ++ toString i ++ "] " ++ m)]
        match w with
        | some gw =>
          let warns' := warns ++ [GoError.err ("[" ++ toString i ++ "] " ++ gw.errorMessage)]
          if shouldStopOnWarnings ctx.options then
            (mergeWarningsAndErrorsGo warns' errs' "and", reg')
          else itemsSliceLoopGo cc ctx inner rest (i + 1) reg' errs' warns'
        | none => itemsSliceLoopGo cc ctx inner rest (i + 1) reg' errs' warns
      | some other => ((some other, w), reg')
      | none =>
        match w with
        | some gw =>
          let warns' := warns ++ [GoError.err ("[" ++ toString i ++ "] " ++ gw.errorMessage)]
          if shouldStopOnWarnings ctx.options then
            (mergeWarningsAndErrorsGo warns' errs "and", reg')
          else itemsSliceLoopGo cc ctx inner rest (i + 1) reg' errs warns'
        | none => itemsSliceLoopGo cc ctx inner rest (i + 1) reg' errs warns

/-- The mapping loop of `Items` (part_000 lines 255-281), identical to the
sequence loop with the `[key]` qualifier; the model iterates the entry list
in order (Go's map iteration order is unspecified). -/
def itemsMapLoopGo (cc : Registry → Validator → Context → Outcome × Registry)
    (ctx : Context) (inner : Validator) :
    List (RValue × RValue) → Registry → List GoError → List GoError → Outcome × Registry
  | [], reg, errs, warns => (mergeWarningsAndErrorsGo warns errs "and", reg)
  | (k, x) :: rest, reg, errs, warns =>
    let fctx := Context.mk ctx.options (some ctx) x
    match cc reg inner fctx with
    | ((e, w), reg') =>
      match e with
      | some (.err m) =>
        let errs' := errs ++ [GoError.err ("[" ++ fmtV k ++ "] " ++ m)]
        match w with
        | some gw =>
          let warns' := warns ++ [GoError.err ("[" ++ fmtV k ++ "] " ++ gw.errorMessage)]
          if shouldStopOnWarnings ctx.options then
            (mergeWarningsAndErrorsGo warns' errs' "and", reg')
          else itemsMapLoopGo cc ctx inner rest reg' errs' warns'
        | none => itemsMapLoopGo cc ctx inner rest reg' errs' warns
      | some other => ((some other, w), reg')
      | none =>
        match w with
        | some gw =>
          let warns' := warns ++ [GoError.err ("[" ++ fmtV k ++ "] " ++ gw.errorMessage)]
          if shouldStopOnWarnings ctx.options then
            (mergeWarningsAndErrorsGo warns' errs "and", reg')
          else itemsMapLoopGo cc ctx inner rest reg' errs warns'
        | none => itemsMapLoopGo cc ctx inner rest reg' errs warns

/-- `Validator.Validate`: the check-time semantics of every closure the
package builds, threading the registry (which a deferred or dynamic lookup
may touch).  Fuel decreases one level per nested check; the `delayed t`
case performs `r.LookupValidator(t)` and runs the result, exactly as
`delayedLookup`'s closure does (its memoisation of the looked-up validator
is unobservable here, since the lookup is a cache hit whenever it fires
after a completed resolution). -/
def check : Nat → TypeEnv → Registry → Validator → Context → Outcome × Registry
  | 0, _, reg, _, _ => ((some (.fmtError "check fuel exhausted"), none), reg)
  | fuel + 1, env, reg, v, ctx =>
    let cc : Registry → Validator → Context → Outcome × Registry :=
      fun r v' c' => check fuel env r v' c'
    match v with
    | .noOp => ((none, none), reg)
    | .constV e w => ((e, w), reg)
    | .andN vs => andLoopGo cc ctx vs reg [] []
    | .orN vs => orLoopGo cc ctx vs reg [] []
    | .field name inner =>
      if isValidV ctx.value then
        let val := fieldByName ctx.value name
        if isValidV val then
          let fctx := Context.mk ctx.options (some ctx) val
          match cc reg inner fctx with
          | ((e, w), reg') =>
            match e with
            | some (.err m) => ((some (.err (quoteGo name ++ " " ++ m)), w), reg')
            | some other => ((some other, w), reg')
            | none => ((none, w), reg')
        else ((some (.unknownField (typeString ctx.value.typeOf) name), none), reg)
      else ((none, none), reg)
    | .items inner =>
      match indirect ctx.value with
      | .vSlice _ xs => itemsSliceLoopGo cc ctx inner xs 0 reg [] []
      | .vMap _ _ es => itemsMapLoopGo cc ctx inner es reg [] []
      | _ => ((isItemsAllowedGo ctx.value.typeOf "items" [], none), reg)
    | .custom inner msg =>
      match cc reg inner ctx with
      | ((e, w), reg') =>
        match e with
        | some (.err _) => ((some (.err msg), w), reg')
        | some other => ((some other, w), reg')
        | none => ((none, w), reg')
    | .empty => (checkEmptyGo ctx, reg)
    | .notEmpty => (checkNotEmptyGo ctx, reg)
    | .length n => (checkLengthGo n ctx, reg)
    | .minLength n => (checkMinLengthGo n ctx, reg)
    | .maxLength n => (checkMaxLengthGo n ctx, reg)
    | .equal o => (checkEqualGo o ctx, reg)
    | .notEqual o => (checkNotEqualGo o ctx, reg)
    | .greaterThan o => (checkGreaterThanGo o ctx, reg)
    | .greaterThanOrEqual o => (checkGreaterThanOrEqualGo o ctx, reg)
    | .lessThan o => (checkLessThanGo o ctx, reg)
    | .lessThanOrEqual o => (checkLessThanOrEqualGo o ctx, reg)
    | .inVals vs => (checkInGo vs ctx, reg)
    | .isNil => (checkNilGo ctx, reg)
    | .notNil => (checkNotNilGo ctx, reg)
    | .ptrElem inner =>
      let pctx := Context.mk ctx.options (some ctx) (elemOfPtr ctx.value)
      cc reg inner pctx
    | .delayed t =>
      match lookupValidatorTop fuel env reg t with
      | (.error e, reg') => ((some e, none), reg')
      | (.ok v', reg') => cc reg' v' ctx

/-- The default catalog installed by `RegisterDefaultTagValidatorFactories`;
`zero` and `notzero` are outside the model (see the header). -/
def defaultFactoryNames : List String :=
  ["empty", "eq", "gt", "gte", "in", "items", "len", "lt", "lte",
   "maxlen", "minlen", "neq", "nil", "notempty", "notnil", "struct"]

/-- options.go `DefaultRegistry`: tag name `"validate"`, empty cache, the
default factory catalog. -/
def defaultRegistry : Registry :=
  ⟨"validate", [], defaultFactoryNames⟩

/-- options.go `defaultOptions` (`StopOnError = DefaultStopOnError = false`). -/
def defaultOptionsGo : Options := ⟨false, false⟩

/-- part_005 `Validate`'s validator determination: the explicit override, or
the registry resolution of the value's type. -/
def resolveForValidate (fuel : Nat) (env : TypeEnv) (reg : Registry) (obj : RValue)
    (ov : Option Validator) : (Except GoError Validator) × Registry :=
  match ov with
  | some v => (.ok v, reg)
  | none => lookupValidatorTop fuel env reg obj.typeOf

/-- part_005 `Validate`: resolve (a resolution failure is returned as the
error with no warning, before any warning handling), run once against a
fresh top-level context, and under `WarningsAsErrors` merge the warning
into the error channel via `mergeWarning` and report no warning. -/
def ValidateGo (fuel : Nat) (env : TypeEnv) (reg : Registry) (obj : RValue)
    (opts : Options) (ov : Option Validator) : Option GoError × Option GoError :=
  match resolveForValidate fuel env reg obj ov with
  | (.error e, _) => (some e, none)
  | (.ok v, reg') =>
    let ctx := Context.mk opts none obj
    let r := (check fuel env reg' v ctx).1
    if opts.warningsAsErrors then (mergeWarningGo r.1 r.2, none)
    else r

/-! ### Specification-side vocabulary

Definitions written from the specification's words, for comparison with the
source-derived functions above. -/

/-- Messages "joined with the word `sep`" (the spec's phrasing for how a
combinator reports several outcomes). -/
def joinedWith : List String → String → String
  | [], _ => ""
  | [m], _ => m
  | m :: rest, sep => m ++ " " ++ sep ++ " " ++ joinedWith rest sep

/-- A check outcome that is a success: neither an Error nor a Warning. -/
def isSuccessOutcome (r : Outcome) : Bool :=
  r.1.isNone && r.2.isNone

/-- Running a list of validators in order against one context, threading
the registry, and collecting every child's outcome. -/
def seqRunGo (cc : Registry → Validator → Context → Outcome × Registry) (ctx : Context) :
    Registry → List Validator → List Outcome × Registry
  | reg, [] => ([], reg)
  | reg, v :: rest =>
    match cc reg v ctx with
    | (r, reg') =>
      match seqRunGo cc ctx reg' rest with
      | (rs, reg'') => (r :: rs, reg'')

/-- Position of the first success in a list of outcomes. -/
def firstSuccessAt : List Outcome → Option Nat
  | [] => none
  | r :: rest =>
    if isSuccessOutcome r then some 0 else (firstSuccessAt rest).map (· + 1)

/-- All Errors of a list of outcomes, in order. -/
def collectErrs : List Outcome → List GoError
  | [] => []
  | r :: rest => r.1.toList ++ collectErrs rest

/-- All Warnings of a list of outcomes, in order. -/
def collectWarns : List Outcome → List GoError
  | [] => []
  | r :: rest => r.2.toList ++ collectWarns rest

/-- The specification's description of disjunction: run the children in
order; if some child succeeds (neither Error nor Warning), the disjunction
succeeds at the first such child (only the children up to and including it
having run, which the threaded registry witnesses); otherwise all collected
Errors are joined with "or", all collected Warnings are joined with "or",
and both are returned. -/
def orDisjunctionSpec (cc : Registry → Validator → Context → Outcome × Registry)
    (ctx : Context) (reg : Registry) (vs : List Validator) : Outcome × Registry :=
  let rs := (seqRunGo cc ctx reg vs).1
  match firstSuccessAt rs with
  | some i => ((none, none), (seqRunGo cc ctx reg (vs.take (i + 1))).2)
  | none =>
    ((match collectErrs rs with
      | [] => none
      | es => some (.err (joinedWith (es.map GoError.errorMessage) "or")),
      match collectWarns rs with
      | [] => none
      | ws => some (.warn (joinedWith (ws.map GoError.errorMessage) "or"))),
     (seqRunGo cc ctx reg vs).2)

/-- The specification's description of the `WarningsAsErrors` merge: both
messages joined with "and" when both outcomes are present, the Warning
message alone becoming the Error when only a Warning is present. -/
def mergeWarningSpec (e w : Option GoError) : Option GoError :=
  match e, w with
  | none, none => none
  | some e', none => some (.err e'.errorMessage)
  | none, some w' => some (.err w'.errorMessage)
  | some e', some w' => some (.err (e'.errorMessage ++ " and " ++ w'.errorMessage))

/-! ### Supporting lemmas -/

theorem joinedWith_cons (x : String) (ms : List String) (sep : String) (h : ms ≠ []) :
    joinedWith (x :: ms) sep = x ++ " " ++ sep ++ " " ++ joinedWith ms sep := by
  cases ms with
  | nil => exact absurd rfl h
  | cons m rest => rfl

theorem foldl_join (sep : String) (ms : List String) (a : String) :
    ms.foldl (fun acc m => acc ++ " " ++ sep ++ " " ++ m) a = joinedWith (a :: ms) sep := by
  induction ms generalizing a with
  | nil => rfl
  | cons m rest ih =>
    rw [List.foldl_cons, ih]
    cases rest with
    | nil => simp [joinedWith, String.append_assoc]
    | cons m2 t =>
      rw [joinedWith_cons _ (m2 :: t) sep (by simp),
          joinedWith_cons _ (m :: m2 :: t) sep (by simp),
          joinedWith_cons _ (m2 :: t) sep (by simp)]
      simp [String.append_assoc]

theorem mergeErrorMessages_eq_joined (es : List GoError) (sep : String) :
    mergeErrorMessages es sep = joinedWith (es.map GoError.errorMessage) sep := by
  cases es with
  | nil => rfl
  | cons e rest =>
    show rest.foldl _ e.errorMessage = _
    rw [List.map_cons, ← foldl_join sep (rest.map GoError.errorMessage) e.errorMessage,
        List.foldl_map]

theorem mergeWarningsAndErrors_eq (warns errs : List GoError) (sep : String) :
    mergeWarningsAndErrorsGo warns errs sep =
      ((match errs with
        | [] => none
        | es => some (.err (joinedWith (es.map GoError.errorMessage) sep))),
       (match warns with
        | [] => none
        | ws => some (.warn (joinedWith (ws.map GoError.errorMessage) sep)))) := by
  cases errs <;> cases warns <;>
    simp [mergeWarningsAndErrorsGo, mergeErrorMessages_eq_joined, List.isEmpty]

theorem orLoopGo_eq_spec (cc : Registry → Validator → Context → Outcome × Registry)
    (ctx : Context) (vs : List Validator) (reg : Registry) (errs warns : List GoError) :
    orLoopGo cc ctx vs reg errs warns =
      (match firstSuccessAt (seqRunGo cc ctx reg vs).1 with
       | some i => ((none, none), (seqRunGo cc ctx reg (vs.take (i + 1))).2)
       | none =>
         (mergeWarningsAndErrorsGo (warns ++ collectWarns (seqRunGo cc ctx reg vs).1)
            (errs ++ collectErrs (seqRunGo cc ctx reg vs).1) "or",
          (seqRunGo cc ctx reg vs).2)) := by
  induction vs generalizing reg errs warns with
  | nil => simp [orLoopGo, seqRunGo, firstSuccessAt, collectErrs, collectWarns]
  | cons v rest ih =>
    rcases hr : cc reg v ctx with ⟨⟨e, w⟩, reg'⟩
    rcases hs : seqRunGo cc ctx reg' rest with ⟨rs', reg''⟩
    by_cases hsucc : (e.isNone && w.isNone) = true
    · simp [orLoopGo, seqRunGo, hr, hs, firstSuccessAt, isSuccessOutcome, hsucc,
        List.take]
    · have hspec := ih reg' (errs ++ e.toList) (warns ++ w.toList)
      rw [hs] at hspec
      simp only [orLoopGo, seqRunGo, hr, hs, hsucc, if_false, Bool.false_eq_true]
      rw [hspec]
      simp only [firstSuccessAt, isSuccessOutcome, hsucc, if_false, Bool.false_eq_true]
      cases hfs : firstSuccessAt rs' with
      | some i => simp [List.take_succ_cons, seqRunGo, hr]
      | none => simp [collectErrs, collectWarns, List.append_assoc]

@[simp] theorem isValidV_vStruct (sn : String) (fs : List (String × RValue)) :
    isValidV (.vStruct sn fs) = true := rfl

@[simp] theorem isValidV_vInvalid : isValidV .vInvalid = false := rfl

theorem mergeWarning_eq_spec (e w : Option GoError) :
    mergeWarningGo e w = mergeWarningSpec e w := by
  cases e <;> cases w
  · rfl
  · rfl
  · rfl
  · simp only [mergeWarningGo, mergeWarningSpec, mergeErrorMessages, List.foldl,
      String.append_assoc]
    rfl

/-! ### The self-referential scenario of claim C1

The struct-cycle type of the repository's own test suite:
`type cycle struct { c *cycle "validate:\"notnil, struct\"" }`. -/

/-- The type environment holding the self-referential struct `cycle`. -/
def cycleEnv : TypeEnv :=
  [("cycle", [⟨"c", .tPtr (.tStruct "cycle"), [("validate", "notnil, struct")]⟩])]

/-- Resolution of the `cycle` type from a fresh default registry. -/
def cycleResolved : (Except GoError Validator) × Registry :=
  lookupValidatorTop 16 cycleEnv defaultRegistry (.tStruct "cycle")

/-- The validator the engine builds for `cycle`: the untagged self-check
slot, the `Field`-scoped conjunction of `notnil` with the `struct` term,
whose nested occurrence of `cycle` is the deferred validator behind the
pointer dereference. -/
def cycleTopValidator : Validator :=
  .andN [.noOp,
    .field "c" (.andN [.notNil, .andN [.noOp, .ptrElem (.delayed (.tStruct "cycle"))]])]

/-- A `cycle` value with the given nested pointer. -/
def cycleVal (inner : Option RValue) : RValue :=
  .vStruct "cycle" [("c", .vPtr (.tStruct "cycle") inner)]

/-- Two levels of nesting, the innermost `c` nil. -/
def cycleValTwo : RValue := cycleVal (some (cycleVal none))

/-- Three levels of nesting, the innermost `c` nil. -/
def cycleValThree : RValue := cycleVal (some (cycleVal (some (cycleVal none))))

/-- A resolution context whose parent chain contains the `cycle` type. -/
def cycleChainCtx : RCtx :=
  RCtx.mk (some (RCtx.mk none emptyField (.tStruct "cycle"))) emptyField
    (.tPtr (.tStruct "cycle"))

/-! ### Claim theorems -/

/-- C1: before descending into a type, `ResolutionContext.LookupValidator`
walks the parent chain, and a type already on that chain yields the
deferred validator (first conjunct, in general).  Resolving the
self-referential `cycle` struct terminates with the exhibited validator,
whose cache entry for `*cycle` contains the deferred `delayed cycle`
wrapper performing the registry lookup at check time; checking the result
validates two and three levels of nesting of the cyclic value, producing
the correctly qualified errors (matching the repository's own
`TestValidate_StructCycle` expectation). -/
theorem claim_C1_cycle_resolution :
    (∀ (look : RCtx → Registry → (Except GoError Validator) × Registry)
       (ctx : RCtx) (reg : Registry) (t : RType),
        chainHas ctx t = true → ctxLookupGo look ctx reg t = (.ok (.delayed t), reg))
    ∧ cycleResolved.1 = .ok cycleTopValidator
    ∧ cacheLookup cycleResolved.2.validators (.tPtr (.tStruct "cycle"))
        = some (some (.andN [.noOp, .ptrElem (.delayed (.tStruct "cycle"))]))
    ∧ check 32 cycleEnv cycleResolved.2 cycleTopValidator
        (Context.mk defaultOptionsGo none cycleValTwo)
        = ((some (.err "\"c\" \"c\" must not be nil"), none), cycleResolved.2)
    ∧ check 32 cycleEnv cycleResolved.2 cycleTopValidator
        (Context.mk defaultOptionsGo none cycleValThree)
        = ((some (.err "\"c\" \"c\" \"c\" must not be nil"), none), cycleResolved.2) := by
  refine ⟨?_, rfl, rfl, rfl, rfl⟩
  intro look ctx reg t h
  simp [ctxLookupGo, h]

/-- Witness for C1's hypothesis-bearing conjunct at a concrete chain. -/
theorem claim_C1_cycle_resolution_witness :
    chainHas cycleChainCtx (.tStruct "cycle") = true
    ∧ ctxLookupGo (mkCallbacks 4 cycleEnv).look cycleChainCtx defaultRegistry
        (.tStruct "cycle")
        = (.ok (.delayed (.tStruct "cycle")), defaultRegistry) :=
  ⟨rfl, claim_C1_cycle_resolution.1 (mkCallbacks 4 cycleEnv).look cycleChainCtx
    defaultRegistry (.tStruct "cycle") rfl⟩

/-- C2: for two or more children, `Or` runs the children in order against
the same context and succeeds exactly on reaching the first child with
neither Error nor Warning (a warning-only child is not success and
iteration continues); when no child succeeds, the collected Errors are
joined with "or" and the collected Warnings are joined with "or", both
returned — the specification-side `orDisjunctionSpec`. -/
theorem claim_C2_or_disjunction (fuel : Nat) (env : TypeEnv) (reg : Registry)
    (vs : List Validator) (ctx : Context) (h : 2 ≤ vs.length) :
    check (fuel + 1) env reg (orV vs) ctx
      = orDisjunctionSpec (fun r v c => check fuel env r v c) ctx reg vs := by
  have hor : orV vs = .orN vs := by
    match vs, h with
    | _ :: _ :: _, _ => rfl
  rw [hor]
  show orLoopGo (fun r v c => check fuel env r v c) ctx vs reg [] [] = _
  rw [orLoopGo_eq_spec]
  unfold orDisjunctionSpec
  cases hfs : firstSuccessAt (seqRunGo (fun r v c => check fuel env r v c) ctx reg vs).1 with
  | some i => simp [hfs]
  | none => simp [hfs, mergeWarningsAndErrors_eq]

/-- Witness for C2 at a concrete disjunction whose second child succeeds. -/
theorem claim_C2_or_disjunction_witness :
    2 ≤ [Validator.constV (some (.err "a")) none, Validator.noOp].length
    ∧ check 2 [] defaultRegistry
        (orV [Validator.constV (some (.err "a")) none, Validator.noOp])
        (Context.mk defaultOptionsGo none (.vString "x"))
        = ((none, none), defaultRegistry) :=
  ⟨by decide,
   (claim_C2_or_disjunction 1 [] defaultRegistry
      [Validator.constV (some (.err "a")) none, Validator.noOp]
      (Context.mk defaultOptionsGo none (.vString "x")) (by decide)).trans rfl⟩

/-- C3 (divergence exhibit): with `StopOnError` set, `Items` does NOT stop
at the first element with a data Error — the `break` of part_000 line 241
sits inside the `switch err.(type)` and terminates only the switch, so both
elements' errors are accumulated (first conjunct), while `And` under the
same options does stop (second conjunct); the warning half of the claim
does hold: under `StopOnError && WarningsAsErrors`, `Items` stops at the
first element that produced a warning (third conjunct). -/
theorem claim_C3_items_stop_divergence :
    (check 8 [] defaultRegistry (itemsV (.length 1))
        (Context.mk ⟨true, false⟩ none (.vSlice .tString [.vString "aa", .vString "bb"]))).1
      = (some (.err "[0] must be of length 1 and [1] must be of length 1"), none)
    ∧ (check 8 [] defaultRegistry (.andN [.length 1, .length 1])
        (Context.mk ⟨true, false⟩ none (.vString "aa"))).1
      = (some (.err "must be of length 1"), none)
    ∧ (check 8 [] defaultRegistry (itemsV (.constV none (some (.warn "w"))))
        (Context.mk ⟨true, true⟩ none (.vSlice .tString [.vString "aa", .vString "bb"]))).1
      = (none, some (.warn "[0] w")) :=
  ⟨rfl, rfl, rfl⟩

/-- C4: with `WarningsAsErrors` set, `Validate` always reports a nil
Warning, and whenever a validator was determined (override or registry),
the result is the raw run's warning merged into the error channel per
`mergeWarningSpec` (messages joined with "and" when both are present, the
warning alone becoming the error when only it is present). -/
theorem claim_C4_warnings_as_errors (fuel : Nat) (env : TypeEnv) (reg : Registry)
    (obj : RValue) (opts : Options) (ov : Option Validator)
    (h : opts.warningsAsErrors = true) :
    (ValidateGo fuel env reg obj opts ov).2 = none
    ∧ (∀ v reg', resolveForValidate fuel env reg obj ov = (.ok v, reg') →
        ValidateGo fuel env reg obj opts ov
          = (mergeWarningSpec (check fuel env reg' v (Context.mk opts none obj)).1.1
              (check fuel env reg' v (Context.mk opts none obj)).1.2, none)) := by
  constructor
  · rcases hres : resolveForValidate fuel env reg obj ov with ⟨r, reg'⟩
    cases r with
    | error e => simp [ValidateGo, hres]
    | ok v => simp [ValidateGo, hres, h]
  · intro v reg' hres
    simp [ValidateGo, hres, h, mergeWarning_eq_spec]

/-- Witness for C4 with an explicit validator producing both outcomes. -/
theorem claim_C4_warnings_as_errors_witness :
    (Options.mk false true).warningsAsErrors = true
    ∧ resolveForValidate 1 [] defaultRegistry (.vString "x")
        (some (.constV (some (.err "E")) (some (.warn "W"))))
        = (.ok (.constV (some (.err "E")) (some (.warn "W"))), defaultRegistry)
    ∧ ValidateGo 1 [] defaultRegistry (.vString "x") (Options.mk false true)
        (some (.constV (some (.err "E")) (some (.warn "W"))))
        = (some (.err "E and W"), none) :=
  ⟨rfl, rfl,
   ((claim_C4_warnings_as_errors 1 [] defaultRegistry (.vString "x")
      (Options.mk false true)
      (some (.constV (some (.err "E")) (some (.warn "W")))) rfl).2
     (.constV (some (.err "E")) (some (.warn "W"))) defaultRegistry rfl).trans rfl⟩

/-- C5 as stated is false: a tag that is present but the empty string does
not yield a no-op validator — the scanner reaches the end sentinel in the
idle state with an empty pending name and looks up a factory named `""`,
failing with `ErrNoTagValidatorFactory`. -/
theorem claim_C5_empty_tag_counterexample :
    defaultStructTagParserGo [] (mkCallbacks 4 [])
      (RCtx.mk none ⟨"Name", .tString, [("validate", "")]⟩ .tString)
      "validate" defaultRegistry
      = (.error (.noTagValidatorFactory ""), defaultRegistry) := rfl

/-- C5 (amended): an absent tag yields a no-op validator and no error (any
registry); a present but empty tag fails with `ErrNoTagValidatorFactory`
for the empty name (under the default registry, where no factory is
registered under `""`). -/
theorem claim_C5_empty_or_absent_tag (env : TypeEnv) (cb : Callbacks) :
    (∀ (ctx : RCtx) (tagName : String) (reg : Registry),
        defaultStructTagParserGo.tagLookup ctx.structField.tags tagName = none →
        defaultStructTagParserGo env cb ctx tagName reg = (.ok ⟨.noOp, ""⟩, reg))
    ∧ (∀ (p : Option RCtx) (fld : FieldDef) (t : RType) (tagName : String),
        defaultStructTagParserGo.tagLookup fld.tags tagName = some "" →
        defaultStructTagParserGo env cb (RCtx.mk p fld t) tagName defaultRegistry
          = (.error (.noTagValidatorFactory ""), defaultRegistry)) := by
  constructor
  · intro ctx tagName reg h
    simp [defaultStructTagParserGo, h]
  · intro p fld t tagName h
    simp only [defaultStructTagParserGo, RCtx.structField, h]
    rfl

/-- Witness for C5's amended statement at concrete fields. -/
theorem claim_C5_empty_or_absent_tag_witness :
    defaultStructTagParserGo.tagLookup (FieldDef.mk "A" .tString []).tags "validate" = none
    ∧ defaultStructTagParserGo [] (mkCallbacks 2 [])
        (RCtx.mk none (FieldDef.mk "A" .tString []) .tString) "validate" defaultRegistry
        = (.ok ⟨.noOp, ""⟩, defaultRegistry)
    ∧ defaultStructTagParserGo.tagLookup
        (FieldDef.mk "B" .tString [("validate", "")]).tags "validate" = some ""
    ∧ defaultStructTagParserGo [] (mkCallbacks 2 [])
        (RCtx.mk none (FieldDef.mk "B" .tString [("validate", "")]) .tString)
        "validate" defaultRegistry
        = (.error (.noTagValidatorFactory ""), defaultRegistry) :=
  ⟨rfl,
   (claim_C5_empty_or_absent_tag [] (mkCallbacks 2 [])).1
     (RCtx.mk none (FieldDef.mk "A" .tString []) .tString) "validate" defaultRegistry rfl,
   rfl,
   (claim_C5_empty_or_absent_tag [] (mkCallbacks 2 [])).2
     none (FieldDef.mk "B" .tString [("validate", "")]) .tString "validate" rfl⟩

/-- C6: `CustomMessage(v, m)` replaces exactly a data Error (`*Error`) with
an Error whose message is `m`, passes the Warning through unchanged in all
three cases, and returns any non-`*Error` error completely unmodified. -/
theorem claim_C6_custom_message (fuel : Nat) (env : TypeEnv) (reg : Registry)
    (v : Validator) (m : String) (ctx : Context) :
    (∀ em w reg', check fuel env reg v ctx = ((some (.err em), w), reg') →
        check (fuel + 1) env reg (customMessageV v m) ctx = ((some (.err m), w), reg'))
    ∧ (∀ e w reg', check fuel env reg v ctx = ((some e, w), reg') →
        (∀ em, e ≠ .err em) →
        check (fuel + 1) env reg (customMessageV v m) ctx = ((some e, w), reg'))
    ∧ (∀ w reg', check fuel env reg v ctx = ((none, w), reg') →
        check (fuel + 1) env reg (customMessageV v m) ctx = ((none, w), reg')) := by
  refine ⟨?_, ?_, ?_⟩
  · intro em w reg' h
    simp [check, customMessageV, h]
  · intro e w reg' h hne
    cases e with
    | err em => exact absurd rfl (hne em)
    | warn s => simp [check, customMessageV, h]
    | invalidTagArguments a b c => simp [check, customMessageV, h]
    | unknownField a b => simp [check, customMessageV, h]
    | noValidator a => simp [check, customMessageV, h]
    | noTagValidatorFactory a => simp [check, customMessageV, h]
    | fmtError a => simp [check, customMessageV, h]
  · intro w reg' h
    simp [check, customMessageV, h]

/-- Witness for C6: a usage error passes through `CustomMessage` unmodified
with its warning intact. -/
theorem claim_C6_custom_message_witness :
    check 1 [] defaultRegistry (.constV (some (.invalidTagArguments "m" "n" []))
        (some (.warn "w"))) (Context.mk defaultOptionsGo none (.vString "x"))
      = ((some (.invalidTagArguments "m" "n" []), some (.warn "w")), defaultRegistry)
    ∧ check 2 [] defaultRegistry
        (customMessageV (.constV (some (.invalidTagArguments "m" "n" []))
          (some (.warn "w"))) "MSG")
        (Context.mk defaultOptionsGo none (.vString "x"))
      = ((some (.invalidTagArguments "m" "n" []), some (.warn "w")), defaultRegistry) :=
  ⟨rfl,
   (claim_C6_custom_message 1 [] defaultRegistry
      (.constV (some (.invalidTagArguments "m" "n" [])) (some (.warn "w"))) "MSG"
      (Context.mk defaultOptionsGo none (.vString "x"))).2.1
     (.invalidTagArguments "m" "n" []) (some (.warn "w")) defaultRegistry rfl
     (fun em hcontra => by simp at hcontra)⟩

/-- C7: a subject that is a nil pointer yields each comparison and size
leaf's ordinary data Error ("must be ..."), never a usage error and never a
success: `indirect` stops at the nil pointer, whose pointer kind every leaf
turns into its failure message before any size or comparison is computed. -/
theorem claim_C7_nil_pointer_leaves (fuel : Nat) (env : TypeEnv) (reg : Registry)
    (opts : Options) (parent : Option Context) (t : RType) (other : RValue)
    (values : List RValue) (n : Int) :
    check (fuel + 1) env reg (.equal other) (Context.mk opts parent (.vPtr t none))
      = ((some (.err ("must be equal to " ++ fmtV other)), none), reg)
    ∧ check (fuel + 1) env reg (.notEqual other) (Context.mk opts parent (.vPtr t none))
      = ((some (.err ("must not be equal to " ++ fmtV other)), none), reg)
    ∧ check (fuel + 1) env reg (.greaterThan other) (Context.mk opts parent (.vPtr t none))
      = ((some (.err ("must be greater than " ++ fmtV other)), none), reg)
    ∧ check (fuel + 1) env reg (.greaterThanOrEqual other)
        (Context.mk opts parent (.vPtr t none))
      = ((some (.err ("must be greater than or equal to " ++ fmtV other)), none), reg)
    ∧ check (fuel + 1) env reg (.lessThan other) (Context.mk opts parent (.vPtr t none))
      = ((some (.err ("must be less than " ++ fmtV other)), none), reg)
    ∧ check (fuel + 1) env reg (.lessThanOrEqual other)
        (Context.mk opts parent (.vPtr t none))
      = ((some (.err ("must be less than or equal to " ++ fmtV other)), none), reg)
    ∧ check (fuel + 1) env reg (.inVals values) (Context.mk opts parent (.vPtr t none))
      = ((some (.err ("must be one of " ++ fmtVals values)), none), reg)
    ∧ check (fuel + 1) env reg .empty (Context.mk opts parent (.vPtr t none))
      = ((some (.err "must be empty"), none), reg)
    ∧ check (fuel + 1) env reg .notEmpty (Context.mk opts parent (.vPtr t none))
      = ((some (.err "must not be empty"), none), reg)
    ∧ check (fuel + 1) env reg (.length n) (Context.mk opts parent (.vPtr t none))
      = ((some (.err ("must be of length " ++ toString n)), none), reg)
    ∧ check (fuel + 1) env reg (.minLength n) (Context.mk opts parent (.vPtr t none))
      = ((some (.err ("must have min length " ++ toString n)), none), reg)
    ∧ check (fuel + 1) env reg (.maxLength n) (Context.mk opts parent (.vPtr t none))
      = ((some (.err ("must have max length " ++ toString n)), none), reg) :=
  ⟨rfl, rfl, rfl, rfl, rfl, rfl, rfl, rfl, rfl, rfl, rfl, rfl⟩

/-- C8: `And()` and `Or()` of zero validators return the no-op validator,
which succeeds with no Error and no Warning on every context; of exactly
one validator they return that validator unchanged, so the result's outcome
on every context is the child's. -/
theorem claim_C8_and_or_arity (fuel : Nat) (env : TypeEnv) (reg : Registry)
    (ctx : Context) (v : Validator) :
    andV [] = Validator.noOp
    ∧ orV [] = Validator.noOp
    ∧ check (fuel + 1) env reg Validator.noOp ctx = ((none, none), reg)
    ∧ andV [v] = v
    ∧ orV [v] = v :=
  ⟨rfl, rfl, rfl, rfl, rfl⟩

/-- C9: `Field(name, v)` skips entirely (no Error, no Warning, inner not
run) when the context value is invalid; on a struct with the named field it
prefixes the quoted field name only to an inner data Error, passes any
other inner error kind through unchanged, and passes the Warning through
unprefixed in every case. -/
theorem claim_C9_field_scoping (fuel : Nat) (env : TypeEnv) (reg : Registry)
    (name : String) (inner : Validator) (opts : Options) (parent : Option Context) :
    (check (fuel + 1) env reg (fieldV name inner) (Context.mk opts parent .vInvalid)
        = ((none, none), reg))
    ∧ (∀ (sn : String) (fs : List (String × RValue)) (fv : RValue),
        fieldByName (.vStruct sn fs) name = fv → isValidV fv = true →
        (∀ m w reg',
            check fuel env reg inner
              (Context.mk opts (some (Context.mk opts parent (.vStruct sn fs))) fv)
              = ((some (.err m), w), reg') →
            check (fuel + 1) env reg (fieldV name inner)
              (Context.mk opts parent (.vStruct sn fs))
              = ((some (.err (quoteGo name ++ " " ++ m)), w), reg'))
        ∧ (∀ e w reg',
            check fuel env reg inner
              (Context.mk opts (some (Context.mk opts parent (.vStruct sn fs))) fv)
              = ((some e, w), reg') →
            (∀ m, e ≠ .err m) →
            check (fuel + 1) env reg (fieldV name inner)
              (Context.mk opts parent (.vStruct sn fs))
              = ((some e, w), reg'))
        ∧ (∀ w reg',
            check fuel env reg inner
              (Context.mk opts (some (Context.mk opts parent (.vStruct sn fs))) fv)
              = ((none, w), reg') →
            check (fuel + 1) env reg (fieldV name inner)
              (Context.mk opts parent (.vStruct sn fs))
              = ((none, w), reg'))) := by
  refine ⟨rfl, ?_⟩
  intro sn fs fv hfb hvalid
  refine ⟨?_, ?_, ?_⟩
  · intro m w reg' h
    simp [check, fieldV, Context.value, Context.options, hfb, hvalid, h]
  · intro e w reg' h hne
    cases e with
    | err em => exact absurd rfl (hne em)
    | warn s => simp [check, fieldV, Context.value, Context.options, hfb, hvalid, h]
    | invalidTagArguments a b c => simp [check, fieldV, Context.value, Context.options, hfb, hvalid, h]
    | unknownField a b => simp [check, fieldV, Context.value, Context.options, hfb, hvalid, h]
    | noValidator a => simp [check, fieldV, Context.value, Context.options, hfb, hvalid, h]
    | noTagValidatorFactory a => simp [check, fieldV, Context.value, Context.options, hfb, hvalid, h]
    | fmtError a => simp [check, fieldV, Context.value, Context.options, hfb, hvalid, h]
  · intro w reg' h
    simp [check, fieldV, Context.value, Context.options, hfb, hvalid, h]

/-- Witness for C9: a data Error gains the quoted field name. -/
theorem claim_C9_field_scoping_witness :
    fieldByName (.vStruct "S" [("A", .vString "x")]) "A" = .vString "x"
    ∧ isValidV (RValue.vString "x") = true
    ∧ check 2 [] defaultRegistry
        (fieldV "A" (.constV (some (.err "boom")) none))
        (Context.mk defaultOptionsGo none (.vStruct "S" [("A", .vString "x")]))
        = ((some (.err "\"A\" boom"), none), defaultRegistry) :=
  ⟨rfl, rfl,
   (((claim_C9_field_scoping 1 [] defaultRegistry "A"
        (.constV (some (.err "boom")) none) defaultOptionsGo none).2
      "S" [("A", .vString "x")] (.vString "x") rfl rfl).1
     "boom" none defaultRegistry rfl).trans rfl⟩

/-- C10: a struct field whose tag value for the configured tag name is
exactly `"-"` makes the default struct-tag parser return the no-op
validator with no custom message and no error. -/
theorem claim_C10_dash_tag (env : TypeEnv) (cb : Callbacks) (ctx : RCtx)
    (tagName : String) (reg : Registry)
    (h : defaultStructTagParserGo.tagLookup ctx.structField.tags tagName = some "-") :
    defaultStructTagParserGo env cb ctx tagName reg = (.ok ⟨.noOp, ""⟩, reg) := by
  simp [defaultStructTagParserGo, h]

/-- Witness for C10 at a concrete field. -/
theorem claim_C10_dash_tag_witness :
    defaultStructTagParserGo.tagLookup
      (FieldDef.mk "A" .tString [("validate", "-")]).tags "validate" = some "-"
    ∧ defaultStructTagParserGo [] (mkCallbacks 2 [])
        (RCtx.mk none (FieldDef.mk "A" .tString [("validate", "-")]) .tString)
        "validate" defaultRegistry
        = (.ok ⟨.noOp, ""⟩, defaultRegistry) :=
  ⟨rfl,
   claim_C10_dash_tag [] (mkCallbacks 2 [])
     (RCtx.mk none (FieldDef.mk "A" .tString [("validate", "-")]) .tString)
     "validate" defaultRegistry rfl⟩

end GoValidate
